import Mathlib

/-!
Verification of the session engine of a telnet-to-UART bridge
(`src/main.py`).

The development shallowly embeds the per-connection session engine:

* the control-byte filter (`filterStep`, `filterRun`) embeds the
  `if telnetRxByte == IAC ... elif discard_count != 0 ... elif
  telnetRxByte != NUL` chain of lines 167-178, recording hardware side
  effects (serial writes, reset-pin pulses) as an event trace;
* the outbound retry loop (`sendRetry`) embeds the
  `while writtenToSocket != 1` loop of lines 186-197, including the
  fact that the `except OSError` handler dereferences `errno.EAGAIN`
  while the module never imports `errno`, so an `OSError` carrying
  arguments raises `NameError` out of the handler;
* the relay loop (`relayLoop`) embeds the `while connectedSocket`
  loop of lines 149-197, driven by an environment script giving, per
  iteration, the result of the non-blocking client read, the byte the
  UART has available (if any), and the scripted outcomes of the send
  attempts;
* the connection lifecycle (`runSession`, `serverRun`) embeds the
  outer accept loop of lines 129-206: preamble sent on accept, filter
  state reinitialised to 0 per connection, socket closed on clean
  disconnect and on a caught `OSError`, and an uncaught exception
  terminating the process.
-/

namespace PicoRetroTelnet

/-- Telnet constant `NUL = 0` (line 59 of `src/main.py`). -/
def NUL : Nat := 0

/-- Telnet constant `IAC = 255` (line 60 of `src/main.py`). -/
def IAC : Nat := 255

/-- Telnet constant `BRK = 243` (line 61 of `src/main.py`). -/
def BRK : Nat := 243

/-- Observable actions of the session engine: a byte written to the
UART (`uart0.write`), a chunk of bytes sent to the client socket
(`sendall` of the preamble or `send` of one relayed byte), a
non-blocking read attempt on the client socket, the reset-pin actions
`nReset.off()` / `time.sleep(0.1)` / `nReset.on()`, and the
`client_socket.close()` call. -/
inductive SEvent where
  | serialWrite (b : Nat)
  | sendClient (bs : List Nat)
  | readClient
  | resetOff
  | sleepMs (ms : Nat)
  | resetOn
  | closeChannel
deriving DecidableEq

/-- The reset pulse of lines 171-173: `nReset.off()`,
`time.sleep(0.1)` (100 ms), `nReset.on()`. -/
def resetPulse : List SEvent := [SEvent.resetOff, SEvent.sleepMs 100, SEvent.resetOn]

/-- One step of the control-byte filter (lines 167-178 of
`src/main.py`), given the current `discard_count` and the inbound byte
`telnetRxByte`; returns the new `discard_count` and the events the
step performs. -/
def filterStep (discard_count : Nat) (telnetRxByte : Nat) : Nat × List SEvent :=
  if telnetRxByte = IAC then
    (2, [])
  else if discard_count ≠ 0 then
    if telnetRxByte = BRK then
      (0, resetPulse)
    else
      (discard_count - 1, [])
  else if telnetRxByte ≠ NUL then
    (discard_count, [SEvent.serialWrite telnetRxByte])
  else
    (discard_count, [])

/-- Running the control-byte filter over a list of inbound client
bytes, threading `discard_count` and concatenating the event traces. -/
def filterRun (discard_count : Nat) : List Nat → Nat × List SEvent
  | [] => (discard_count, [])
  | b :: rest =>
    ((filterRun (filterStep discard_count b).1 rest).1,
      (filterStep discard_count b).2 ++ (filterRun (filterStep discard_count b).1 rest).2)

/-- The bytes a trace writes to the serial transport, in order. -/
def serialBytes (evs : List SEvent) : List Nat :=
  evs.filterMap fun e =>
    match e with
    | SEvent.serialWrite b => some b
    | _ => none

/-- The chunks of bytes a trace sends to the client, in order. -/
def clientChunks (evs : List SEvent) : List (List Nat) :=
  evs.filterMap fun e =>
    match e with
    | SEvent.sendClient bs => some bs
    | _ => none

/-- The bytes a trace sends to the client, in order. -/
def clientBytes (evs : List SEvent) : List Nat :=
  (clientChunks evs).flatten

/-- How many reset pulses a trace performs (each pulse drives the
reset pin inactive exactly once). -/
def pulseCount (evs : List SEvent) : Nat :=
  evs.countP fun e =>
    match e with
    | SEvent.resetOff => true
    | _ => false

theorem serialBytes_append (xs ys : List SEvent) :
    serialBytes (xs ++ ys) = serialBytes xs ++ serialBytes ys := by
  simp [serialBytes]

theorem clientChunks_append (xs ys : List SEvent) :
    clientChunks (xs ++ ys) = clientChunks xs ++ clientChunks ys := by
  simp [clientChunks]

theorem clientBytes_append (xs ys : List SEvent) :
    clientBytes (xs ++ ys) = clientBytes xs ++ clientBytes ys := by
  simp [clientBytes, clientChunks_append]

theorem pulseCount_append (xs ys : List SEvent) :
    pulseCount (xs ++ ys) = pulseCount xs + pulseCount ys := by
  simp [pulseCount, List.countP_append]

theorem serialBytes_resetPulse : serialBytes resetPulse = [] := by
  simp [serialBytes, resetPulse]

theorem serialBytes_map_serialWrite (bs : List Nat) :
    serialBytes (bs.map SEvent.serialWrite) = bs := by
  induction bs with
  | nil => simp [serialBytes]
  | cons b rest ih => simpa [serialBytes] using ih

theorem filterStep_IAC (dc : Nat) : filterStep dc 255 = (2, []) := by
  simp [filterStep, IAC]

theorem filterStep_discarding_no_forward (n b : Nat) :
    serialBytes (filterStep (n + 1) b).2 = [] := by
  by_cases hIAC : b = IAC
  · simp [filterStep, hIAC, serialBytes]
  · by_cases hBRK : b = BRK
    · simp [filterStep, hIAC, hBRK, IAC, BRK, serialBytes_resetPulse]
    · simp [filterStep, hIAC, hBRK, serialBytes]

/-- Result of one non-blocking `client_file.read(1)` (line 156):
`closed` is the zero-length read of an empty byte string, `noData` is `None` (nothing
available), `dataByte b` is a single received byte. -/
inductive ReadResult where
  | closed
  | noData
  | dataByte (b : Nat)
deriving DecidableEq

/-- Scripted outcome of one `client_socket.send(uartRxData)` attempt
(line 189): `ok n` is a normal return of `n`, `err args` is an
`OSError` raised with the given `args` tuple (for EAGAIN,
`args = [11]`). -/
inductive SendAttempt where
  | ok (n : Nat)
  | err (args : List Nat)
deriving DecidableEq

/-- Outcome of the `while writtenToSocket != 1` retry loop (lines
186-197): `delivered k` means the loop exited after `k` send calls
with the byte accepted once; `raisedOSError` means an `OSError` with
empty `args` was re-raised (caught by the outer handler);
`crashedNameError` means the handler evaluated `errno.EAGAIN` with
`errno` unimported, raising `NameError` past every handler;
`stillRetrying` means the scripted attempts ran out with the loop
still spinning. -/
inductive RetryResult where
  | delivered (attempts : Nat)
  | raisedOSError
  | crashedNameError
  | stillRetrying
deriving DecidableEq

/-- Add one more consumed send call to a delivered outcome. -/
def bumpAttempt : RetryResult → RetryResult
  | RetryResult.delivered n => RetryResult.delivered (n + 1)
  | r => r

/-- The outbound retry loop of lines 186-197: loop while the send has
not returned 1. A normal return of `n ≠ 1` keeps looping; an `OSError`
enters the handler, which first tests `len(e.args) > 0` — if the tuple
is empty the `else: raise` branch re-raises the `OSError`, and if it
is non-empty the handler evaluates `errno.EAGAIN`, which raises
`NameError` because `src/main.py` never imports `errno`. -/
def sendRetry : List SendAttempt → RetryResult
  | [] => RetryResult.stillRetrying
  | SendAttempt.ok n :: rest =>
    if n = 1 then RetryResult.delivered 1 else bumpAttempt (sendRetry rest)
  | SendAttempt.err args :: _ =>
    if args.length > 0 then RetryResult.crashedNameError else RetryResult.raisedOSError

/-- Whether a retry outcome is a successful delivery. -/
def RetryResult.isDelivered : RetryResult → Bool
  | RetryResult.delivered _ => true
  | _ => false

/-- Environment input for one iteration of the `while connectedSocket`
loop: the result of the client read, the byte `uart0.read(1)` returns
when `uart0.any() > 0` (or `none` when the UART is idle), and the
scripted outcomes of the send attempts for that byte. -/
structure IterInput where
  clientRead : ReadResult
  uartByte : Option Nat
  sendAttempts : List SendAttempt
deriving DecidableEq

/-- How a run of the relay loop ends: `clean` is the
`connectedSocket = False` exit after a zero-length read; `osError` is
an `OSError` escaping the loop into the outer `except OSError` handler;
`crashed` is a `NameError` escaping every handler and terminating the
process; `hung` is the retry loop spinning beyond its script;
`ranOut` is the iteration script ending with the session still
connected. -/
inductive LoopOutcome where
  | clean
  | osError
  | crashed
  | hung
  | ranOut
deriving DecidableEq

/-- The client-to-serial half of one iteration (lines 156-178): a data
byte runs through the control-byte filter; a zero-length read or no
data leaves the filter state unchanged and performs nothing. -/
def iterFilter (dc : Nat) (rd : ReadResult) : Nat × List SEvent :=
  match rd with
  | ReadResult.dataByte b => filterStep dc b
  | _ => (dc, [])

/-- The events one iteration of the relay loop performs: the read
attempt, the filter actions, then — when the UART has a byte and the
retry loop delivers it — the send of that byte to the client. -/
def iterEvents (dc : Nat) (inp : IterInput) : List SEvent :=
  SEvent.readClient ::
    (iterFilter dc inp.clientRead).2 ++
      (match inp.uartByte with
       | none => []
       | some b =>
         match sendRetry inp.sendAttempts with
         | RetryResult.delivered _ => [SEvent.sendClient [b]]
         | _ => [])

/-- Whether the UART-to-client half of an iteration aborts the loop:
`none` when the UART is idle or the retry loop delivers; otherwise the
outcome the abort produces. -/
def iterAbort (inp : IterInput) : Option LoopOutcome :=
  match inp.uartByte with
  | none => none
  | some _ =>
    match sendRetry inp.sendAttempts with
    | RetryResult.delivered _ => none
    | RetryResult.raisedOSError => some LoopOutcome.osError
    | RetryResult.crashedNameError => some LoopOutcome.crashed
    | RetryResult.stillRetrying => some LoopOutcome.hung

/-- The `while connectedSocket` relay loop of lines 149-197, driven by
an iteration script. Each iteration reads the client, runs the filter
on a received byte, then services the UART side; a zero-length read
clears `connectedSocket` but the UART side of that same iteration
still runs before the loop condition is rechecked. -/
def relayLoop (dc : Nat) : List IterInput → List SEvent × LoopOutcome
  | [] => ([], LoopOutcome.ranOut)
  | inp :: rest =>
    match iterAbort inp with
    | some out => (iterEvents dc inp, out)
    | none =>
      if inp.clientRead = ReadResult.closed then
        (iterEvents dc inp, LoopOutcome.clean)
      else
        (iterEvents dc inp ++ (relayLoop (iterFilter dc inp.clientRead).1 rest).1,
          (relayLoop (iterFilter dc inp.clientRead).1 rest).2)

/-- The negotiation preamble of line 141:
IAC WILL ECHO, IAC WILL SUPPRESS-GO-AHEAD, IAC WONT LINEMODE. -/
def preamble : List Nat := [255, 251, 1, 255, 251, 3, 255, 252, 34]

/-- One accepted session (lines 131-197): `sendall` of the preamble as
one write, then the relay loop starting from `discard_count = 0`
(line 146). -/
def runSession (script : List IterInput) : List SEvent × LoopOutcome :=
  (SEvent.sendClient preamble :: (relayLoop 0 script).1, (relayLoop 0 script).2)

/-- The outer accept loop of lines 129-206 over a list of
per-connection scripts: a clean disconnect closes the socket and
accepts the next connection; an `OSError` is caught by the outer
handler, which also closes the socket and continues; any other ending
(uncaught `NameError`, or a session that never ends) stops the process
before any further connection is served. -/
def serverRun : List (List IterInput) → List (List SEvent × LoopOutcome)
  | [] => []
  | s :: rest =>
    match (runSession s).2 with
    | LoopOutcome.clean =>
      ((runSession s).1 ++ [SEvent.closeChannel], (runSession s).2) :: serverRun rest
    | LoopOutcome.osError =>
      ((runSession s).1 ++ [SEvent.closeChannel], (runSession s).2) :: serverRun rest
    | _ => [runSession s]

/-- C1: a byte equal to 255 (IAC) always moves the filter to
`discard_count = 2` — also from inside a discard window, restarting a
fresh 2-byte discard — and forwards nothing; a byte processed while
`discard_count ≠ 0` is never written to the serial transport; and an
IAC followed by two bytes that are neither IAC nor BRK discards
exactly those two bytes, after which the filter behaves exactly as a
fresh `NORMAL` filter on the remaining input. -/
theorem iac_discards_two_bytes (n dc b b1 b2 : Nat) (more : List Nat)
    (h1 : b1 ≠ 255) (h2 : b1 ≠ 243) (h3 : b2 ≠ 255) (h4 : b2 ≠ 243) :
    filterStep dc 255 = (2, []) ∧
    serialBytes (filterStep (n + 1) b).2 = [] ∧
    filterRun dc (255 :: b1 :: b2 :: more) = filterRun 0 more := by
  refine ⟨filterStep_IAC dc, filterStep_discarding_no_forward n b, ?_⟩
  have hs1 : filterStep dc 255 = (2, []) := filterStep_IAC dc
  have hs2 : filterStep 2 b1 = (1, []) := by
    simp [filterStep, IAC, BRK, h1, h2]
  have hs3 : filterStep 1 b2 = (0, []) := by
    simp [filterStep, IAC, BRK, h3, h4]
  simp [filterRun, hs1, hs2, hs3]

/-- Witness for `iac_discards_two_bytes` at concrete inputs. -/
theorem iac_discards_two_bytes_witness :
    ((1 : Nat) ≠ 255 ∧ (1 : Nat) ≠ 243 ∧ (2 : Nat) ≠ 255 ∧ (2 : Nat) ≠ 243) ∧
    (filterStep 1 255 = (2, []) ∧
      serialBytes (filterStep (0 + 1) 7).2 = [] ∧
      filterRun 1 (255 :: 1 :: 2 :: [65]) = filterRun 0 [65]) :=
  ⟨by decide, iac_discards_two_bytes 0 1 7 1 2 [65] (by decide) (by decide) (by decide) (by decide)⟩

/-- C2: input `[255, 243]` (IAC BRK) from the `NORMAL` state performs
exactly one reset pulse — reset pin driven inactive, 100 ms sleep, pin
restored — forwards no byte to the serial transport, and returns the
filter to `NORMAL` (`discard_count = 0`); input `[255, x]` for any
non-BRK byte `x` performs zero pulses and forwards zero bytes. -/
theorem brk_exactly_one_pulse (x : Nat) (hx : x ≠ 243) :
    (filterRun 0 [255, 243]).2 = resetPulse ∧
    resetPulse = [SEvent.resetOff, SEvent.sleepMs 100, SEvent.resetOn] ∧
    pulseCount (filterRun 0 [255, 243]).2 = 1 ∧
    serialBytes (filterRun 0 [255, 243]).2 = [] ∧
    (filterRun 0 [255, 243]).1 = 0 ∧
    pulseCount (filterRun 0 [255, x]).2 = 0 ∧
    serialBytes (filterRun 0 [255, x]).2 = [] := by
  refine ⟨by decide, by decide, by decide, by decide, by decide, ?_, ?_⟩ <;>
  · by_cases hIAC : x = 255 <;>
      simp [filterRun, filterStep, IAC, BRK, hIAC, hx, pulseCount, serialBytes]

/-- Witness for `brk_exactly_one_pulse` at `x = 1`. -/
theorem brk_exactly_one_pulse_witness :
    ((1 : Nat) ≠ 243) ∧
    ((filterRun 0 [255, 243]).2 = resetPulse ∧
      resetPulse = [SEvent.resetOff, SEvent.sleepMs 100, SEvent.resetOn] ∧
      pulseCount (filterRun 0 [255, 243]).2 = 1 ∧
      serialBytes (filterRun 0 [255, 243]).2 = [] ∧
      (filterRun 0 [255, 243]).1 = 0 ∧
      pulseCount (filterRun 0 [255, 1]).2 = 0 ∧
      serialBytes (filterRun 0 [255, 1]).2 = []) :=
  ⟨by decide, brk_exactly_one_pulse 1 (by decide)⟩

/-- C5: a client byte stream containing no byte equal to 255 and no
byte equal to 0, fed to the filter in the `NORMAL` state, is forwarded
to the serial transport byte-for-byte, in order, with no additions or
omissions, and leaves the filter in `NORMAL`; in particular the bytes
of the ASCII text HELLO followed by CR LF pass through unchanged. -/
theorem pass_through_identity (bs : List Nat) (h : ∀ b ∈ bs, b ≠ 255 ∧ b ≠ 0) :
    filterRun 0 bs = (0, bs.map SEvent.serialWrite) ∧
    serialBytes (filterRun 0 bs).2 = bs := by
  have hmain : filterRun 0 bs = (0, bs.map SEvent.serialWrite) := by
    induction bs with
    | nil => simp [filterRun]
    | cons b rest ih =>
      have hb := h b (List.mem_cons_self b rest)
      have hrest : ∀ c ∈ rest, c ≠ 255 ∧ c ≠ 0 := fun c hc => h c (List.mem_cons_of_mem b hc)
      have hstep : filterStep 0 b = (0, [SEvent.serialWrite b]) := by
        simp [filterStep, IAC, NUL, hb.1, hb.2]
      simp [filterRun, hstep, ih hrest]
  exact ⟨hmain, by rw [hmain]; exact serialBytes_map_serialWrite bs⟩

/-- Witness for `pass_through_identity` on the bytes of
the ASCII text HELLO followed by CR LF. -/
theorem pass_through_identity_witness :
    (∀ b ∈ ([72, 69, 76, 76, 79, 13, 10] : List Nat), b ≠ 255 ∧ b ≠ 0) ∧
    (filterRun 0 [72, 69, 76, 76, 79, 13, 10]
        = (0, ([72, 69, 76, 76, 79, 13, 10] : List Nat).map SEvent.serialWrite) ∧
      serialBytes (filterRun 0 [72, 69, 76, 76, 79, 13, 10]).2 = [72, 69, 76, 76, 79, 13, 10]) :=
  ⟨by decide, pass_through_identity [72, 69, 76, 76, 79, 13, 10] (by decide)⟩

/-- C6: a NUL byte (0) arriving in the `NORMAL` state is silently
discarded — it is not forwarded and performs no other action — and the
the input bytes `[65, 0, 66]` (letter A, NUL, letter B) yield exactly
(`[65, 66]`) written to serial, leaving the filter in `NORMAL`. -/
theorem nul_filtered_in_normal :
    filterStep 0 0 = (0, []) ∧
    serialBytes (filterRun 0 [65, 0, 66]).2 = [65, 66] ∧
    (filterRun 0 [65, 0, 66]).1 = 0 := by
  decide

/-- C9: BRK is recognized at either position of the 2-byte discard
window: for any `x` that is neither IAC nor BRK, the input
`[255, x, 243]` pulses the reset line exactly once (at the third byte,
processed with `discard_count = 1`), forwards nothing, and returns the
filter to `NORMAL`; in particular `filterStep 1 243` itself performs
the pulse and resets the state. -/
theorem brk_second_discard_position (x : Nat) (h1 : x ≠ 255) (h2 : x ≠ 243) :
    filterStep 1 243 = (0, resetPulse) ∧
    filterRun 0 [255, x, 243] = (0, resetPulse) ∧
    pulseCount (filterRun 0 [255, x, 243]).2 = 1 ∧
    serialBytes (filterRun 0 [255, x, 243]).2 = [] := by
  have hstep : filterStep 2 x = (1, []) := by
    simp [filterStep, IAC, BRK, h1, h2]
  have hrun : filterRun 0 [255, x, 243] = (0, resetPulse) := by
    simp [filterRun, filterStep_IAC, hstep]
    decide
  refine ⟨by decide, hrun, ?_, ?_⟩ <;> rw [hrun] <;> decide

/-- Witness for `brk_second_discard_position` at `x = 1`. -/
theorem brk_second_discard_position_witness :
    ((1 : Nat) ≠ 255 ∧ (1 : Nat) ≠ 243) ∧
    (filterStep 1 243 = (0, resetPulse) ∧
      filterRun 0 [255, 1, 243] = (0, resetPulse) ∧
      pulseCount (filterRun 0 [255, 1, 243]).2 = 1 ∧
      serialBytes (filterRun 0 [255, 1, 243]).2 = []) :=
  ⟨by decide, brk_second_discard_position 1 (by decide) (by decide)⟩

/-- C3: the retry loop of lines 186-197 is intended to retry a send
that would block (`# Try again`), but `src/main.py` never imports
`errno`, so the handler expression `e.args[0] == errno.EAGAIN` raises
`NameError` as soon as an `OSError` carrying arguments (such as
EAGAIN, `args = [11]`) is caught: the first would-block terminates the
process instead of retrying, while a send that succeeds immediately
does deliver the byte exactly once. -/
theorem errno_unimported_crashes_retry :
    sendRetry [SendAttempt.err [11], SendAttempt.ok 1] = RetryResult.crashedNameError ∧
    sendRetry [SendAttempt.err [11]] = RetryResult.crashedNameError ∧
    sendRetry [SendAttempt.ok 1] = RetryResult.delivered 1 := by
  decide

/-- C4: for every accepted connection and every environment behaviour,
the first client-bound event of the session is a single write of the whole
9-byte negotiation preamble `255,251,1,255,251,3,255,252,34`,
performed before any read attempt on the client and before any relayed
data; every other client-bound byte comes after it. -/
theorem preamble_sent_first (script : List IterInput) :
    (runSession script).1 = SEvent.sendClient preamble :: (relayLoop 0 script).1 ∧
    preamble = [255, 251, 1, 255, 251, 3, 255, 252, 34] ∧
    clientChunks (runSession script).1 = preamble :: clientChunks (relayLoop 0 script).1 ∧
    clientBytes (runSession script).1
      = [255, 251, 1, 255, 251, 3, 255, 252, 34] ++ clientBytes (relayLoop 0 script).1 ∧
    (runSession script).1.head? = some (SEvent.sendClient [255, 251, 1, 255, 251, 3, 255, 252, 34]) := by
  refine ⟨rfl, rfl, ?_, ?_, rfl⟩ <;>
    simp [runSession, clientChunks, clientBytes, preamble]

/-- A zero-length client read in an iteration where the UART also has
a byte pending and the send raises an `OSError` carrying arguments
makes the unimported-`errno` handler raise `NameError`, terminating
the process: the relay loop ends `crashed`, the channel is never
closed, and the next connection is never accepted (the server
processes only 1 of its 2 scripted connections). -/
theorem disconnect_with_pending_send_error_crashes :
    (relayLoop 0 [⟨ReadResult.closed, some 10, [SendAttempt.err [104]]⟩]).2
      = LoopOutcome.crashed ∧
    (serverRun [[⟨ReadResult.closed, some 10, [SendAttempt.err [104]]⟩],
        [⟨ReadResult.closed, none, []⟩]]).length = 1 := by
  decide

/-- The UART half of the teardown iteration is benign: the UART is
idle, or the retry loop delivers its byte, or the send raises an
`OSError` with an empty argument tuple (re-raised and caught by the
outer handler). -/
def benignSend (u : Option Nat) (satt : List SendAttempt) : Prop :=
  u = none ∨ (sendRetry satt).isDelivered = true ∨ sendRetry satt = RetryResult.raisedOSError

theorem serverRun_head (s : List IterInput) (rest : List (List IterInput)) :
    ∃ t, (serverRun (s :: rest)).head? = some t ∧ t.2 = (relayLoop 0 s).2 := by
  cases hout : (runSession s).2 with
  | clean =>
    exact ⟨((runSession s).1 ++ [SEvent.closeChannel], (runSession s).2),
      by simp [serverRun, hout], rfl⟩
  | osError =>
    exact ⟨((runSession s).1 ++ [SEvent.closeChannel], (runSession s).2),
      by simp [serverRun, hout], rfl⟩
  | crashed => exact ⟨runSession s, by simp [serverRun, hout], rfl⟩
  | hung => exact ⟨runSession s, by simp [serverRun, hout], rfl⟩
  | ranOut => exact ⟨runSession s, by simp [serverRun, hout], rfl⟩

/-- C7 (amended): a zero-length client read ends the relay loop in
that very iteration — the result does not depend on what the script
would have offered later — and, provided the outbound send of that
same final iteration does not raise an `OSError` carrying arguments
(which the unimported `errno` turns into a process-killing
`NameError`), the loop ends `clean` or via a caught `OSError`; a
session whose loop ends in one of those two ways has its channel
closed and the server goes on to accept the next connection, whose
session runs the relay loop from a fresh `discard_count = 0`. -/
theorem zero_length_read_clean_teardown (dc : Nat) (u : Option Nat)
    (satt : List SendAttempt) (rest rest' script next : List IterInput)
    (scripts : List (List IterInput)) (hb : benignSend u satt)
    (hs : (relayLoop 0 script).2 = LoopOutcome.clean ∨
      (relayLoop 0 script).2 = LoopOutcome.osError) :
    relayLoop dc (⟨ReadResult.closed, u, satt⟩ :: rest)
      = relayLoop dc (⟨ReadResult.closed, u, satt⟩ :: rest') ∧
    ((relayLoop dc (⟨ReadResult.closed, u, satt⟩ :: rest)).2 = LoopOutcome.clean ∨
      (relayLoop dc (⟨ReadResult.closed, u, satt⟩ :: rest)).2 = LoopOutcome.osError) ∧
    serverRun (script :: next :: scripts)
      = ((runSession script).1 ++ [SEvent.closeChannel], (relayLoop 0 script).2)
          :: serverRun (next :: scripts) ∧
    (∃ t, (serverRun (next :: scripts)).head? = some t ∧ t.2 = (relayLoop 0 next).2) := by
  have habort : iterAbort ⟨ReadResult.closed, u, satt⟩ = none ∨
      iterAbort ⟨ReadResult.closed, u, satt⟩ = some LoopOutcome.osError := by
    cases u with
    | none => exact Or.inl rfl
    | some b =>
      rcases hb with h | h | h
      · exact absurd h (by simp)
      · cases hr : sendRetry satt with
        | delivered n => exact Or.inl (by simp [iterAbort, hr])
        | raisedOSError => rw [hr] at h; exact absurd h (by simp [RetryResult.isDelivered])
        | crashedNameError => rw [hr] at h; exact absurd h (by simp [RetryResult.isDelivered])
        | stillRetrying => rw [hr] at h; exact absurd h (by simp [RetryResult.isDelivered])
      · exact Or.inr (by simp [iterAbort, h])
  have hserver : serverRun (script :: next :: scripts)
      = ((runSession script).1 ++ [SEvent.closeChannel], (relayLoop 0 script).2)
          :: serverRun (next :: scripts) := by
    rcases hs with h | h <;> simp [serverRun, runSession, h]
  rcases habort with h | h
  · exact ⟨by simp [relayLoop, h], Or.inl (by simp [relayLoop, h]), hserver,
      serverRun_head next scripts⟩
  · exact ⟨by simp [relayLoop, h], Or.inr (by simp [relayLoop, h]), hserver,
      serverRun_head next scripts⟩

/-- Witness for `zero_length_read_clean_teardown` at a concrete
teardown iteration and concrete follow-up connection scripts. -/
theorem zero_length_read_clean_teardown_witness :
    (benignSend none [] ∧
      ((relayLoop 0 [⟨ReadResult.closed, none, []⟩]).2 = LoopOutcome.clean ∨
        (relayLoop 0 [⟨ReadResult.closed, none, []⟩]).2 = LoopOutcome.osError)) ∧
    (relayLoop 0 [⟨ReadResult.closed, none, []⟩]
        = relayLoop 0 [⟨ReadResult.closed, none, []⟩, ⟨ReadResult.noData, none, []⟩] ∧
      ((relayLoop 0 [⟨ReadResult.closed, none, []⟩]).2 = LoopOutcome.clean ∨
        (relayLoop 0 [⟨ReadResult.closed, none, []⟩]).2 = LoopOutcome.osError) ∧
      serverRun [[⟨ReadResult.closed, none, []⟩], [⟨ReadResult.closed, none, []⟩]]
        = ((runSession [⟨ReadResult.closed, none, []⟩]).1 ++ [SEvent.closeChannel],
            (relayLoop 0 [⟨ReadResult.closed, none, []⟩]).2)
            :: serverRun [[⟨ReadResult.closed, none, []⟩]] ∧
      (∃ t, (serverRun [[⟨ReadResult.closed, none, []⟩]]).head? = some t ∧
        t.2 = (relayLoop 0 [⟨ReadResult.closed, none, []⟩]).2)) :=
  ⟨⟨Or.inl rfl, Or.inl (by decide)⟩,
    zero_length_read_clean_teardown 0 none [] [] [⟨ReadResult.noData, none, []⟩]
      [⟨ReadResult.closed, none, []⟩] [⟨ReadResult.closed, none, []⟩] []
      (Or.inl rfl) (Or.inl (by decide))⟩

/-- C10: in the `NORMAL` state (`discard_count = 0`) no byte — in
particular not BRK itself — triggers a reset pulse, and a byte equal
to 243 (BRK) arriving in `NORMAL` is forwarded to the serial transport
like any ordinary byte. -/
theorem brk_in_normal_forwarded (b : Nat) :
    pulseCount (filterStep 0 b).2 = 0 ∧
    filterStep 0 243 = (0, [SEvent.serialWrite 243]) ∧
    serialBytes (filterStep 0 243).2 = [243] := by
  refine ⟨?_, by decide, by decide⟩
  by_cases hIAC : b = IAC
  · simp [filterStep, hIAC, pulseCount]
  · by_cases hNUL : b = NUL
    · simp [filterStep, hIAC, hNUL, NUL, IAC, pulseCount]
    · simp [filterStep, hIAC, hNUL, pulseCount]

/-- The client data bytes an iteration script offers, in arrival
order (zero-length reads and empty reads contribute no byte). -/
def clientDataBytes (iters : List IterInput) : List Nat :=
  iters.filterMap fun i =>
    match i.clientRead with
    | ReadResult.dataByte b => some b
    | _ => none

/-- The UART bytes an iteration script offers, in arrival order. -/
def uartBytesOf (iters : List IterInput) : List Nat :=
  iters.filterMap fun i => i.uartByte

/-- An iteration that keeps the relay loop running: the client read is
not a zero-length read, and any pending UART byte is eventually
delivered by the retry loop. -/
def iterOk (inp : IterInput) : Bool :=
  !(inp.clientRead == ReadResult.closed) &&
    (!(inp.uartByte.isSome) || (sendRetry inp.sendAttempts).isDelivered)

/-- The bytes the UART half of one iteration delivers to the client:
one byte exactly when the UART had one and the retry loop delivered
it. -/
def uartDelivered (inp : IterInput) : List Nat :=
  match inp.uartByte with
  | none => []
  | some b =>
    match sendRetry inp.sendAttempts with
    | RetryResult.delivered _ => [b]
    | _ => []

theorem isDelivered_iff (r : RetryResult) :
    r.isDelivered = true ↔ ∃ n, r = RetryResult.delivered n := by
  cases r <;> simp [RetryResult.isDelivered]

theorem iterAbort_eq_none (inp : IterInput)
    (h : ∀ b, inp.uartByte = some b → (sendRetry inp.sendAttempts).isDelivered = true) :
    iterAbort inp = none := by
  cases hu : inp.uartByte with
  | none => simp [iterAbort, hu]
  | some b =>
    rcases (isDelivered_iff _).1 (h b hu) with ⟨n, hn⟩
    simp [iterAbort, hu, hn]

theorem serialBytes_iterEvents (dc : Nat) (inp : IterInput) :
    serialBytes (iterEvents dc inp) = serialBytes (iterFilter dc inp.clientRead).2 := by
  cases hu : inp.uartByte with
  | none => simp [iterEvents, hu, serialBytes]
  | some b =>
    cases hr : sendRetry inp.sendAttempts <;>
      simp [iterEvents, hu, hr, serialBytes]

theorem clientChunks_filterStep (dc b : Nat) :
    clientChunks (filterStep dc b).2 = [] := by
  by_cases hIAC : b = IAC
  · simp [filterStep, hIAC, clientChunks]
  · by_cases hdc : dc ≠ 0
    · by_cases hBRK : b = BRK
      · simp [filterStep, hIAC, hdc, hBRK, IAC, BRK, clientChunks, resetPulse]
      · simp [filterStep, hIAC, hdc, hBRK, clientChunks]
    · by_cases hNUL : b = NUL
      · simp [filterStep, hIAC, hdc, hNUL, IAC, NUL, clientChunks]
      · simp [filterStep, hIAC, hdc, hNUL, clientChunks]

theorem clientChunks_iterFilter (dc : Nat) (rd : ReadResult) :
    clientChunks (iterFilter dc rd).2 = [] := by
  cases rd with
  | dataByte b => exact clientChunks_filterStep dc b
  | closed => simp [iterFilter, clientChunks]
  | noData => simp [iterFilter, clientChunks]

theorem clientChunks_readClient_cons (l : List SEvent) :
    clientChunks (SEvent.readClient :: l) = clientChunks l := by
  simp [clientChunks]

theorem clientBytes_iterEvents (dc : Nat) (inp : IterInput) :
    clientBytes (iterEvents dc inp) = uartDelivered inp := by
  have hf := clientChunks_iterFilter dc inp.clientRead
  cases hu : inp.uartByte with
  | none =>
    simp only [iterEvents, hu, uartDelivered, clientBytes, clientChunks_readClient_cons,
      clientChunks_append, hf]
    simp [clientChunks]
  | some b =>
    cases hr : sendRetry inp.sendAttempts <;>
    · simp only [iterEvents, hu, hr, uartDelivered, clientBytes, clientChunks_readClient_cons,
        clientChunks_append, hf]
      simp [clientChunks]

theorem serialBytes_filterStep_length (dc b : Nat) :
    (serialBytes (filterStep dc b).2).length ≤ 1 := by
  by_cases hIAC : b = IAC
  · simp [filterStep, hIAC, serialBytes]
  · by_cases hdc : dc ≠ 0
    · by_cases hBRK : b = BRK
      · simp [filterStep, hIAC, hdc, hBRK, IAC, BRK, serialBytes_resetPulse]
      · simp [filterStep, hIAC, hdc, hBRK, serialBytes]
    · by_cases hNUL : b = NUL
      · simp [filterStep, hIAC, hdc, hNUL, IAC, NUL, serialBytes]
      · simp [filterStep, hIAC, hdc, hNUL, serialBytes]

theorem iterEvents_bounds (dc : Nat) (inp : IterInput) :
    (serialBytes (iterEvents dc inp)).length ≤ 1 ∧
    (clientBytes (iterEvents dc inp)).length ≤ 1 := by
  constructor
  · rw [serialBytes_iterEvents]
    cases hrd : inp.clientRead with
    | dataByte b => exact serialBytes_filterStep_length dc b
    | closed => simp [iterFilter, serialBytes]
    | noData => simp [iterFilter, serialBytes]
  · rw [clientBytes_iterEvents]
    cases hu : inp.uartByte with
    | none => simp [uartDelivered, hu]
    | some b => cases hr : sendRetry inp.sendAttempts <;> simp [uartDelivered, hu, hr]

theorem relayLoop_decomp (dc : Nat) (inp : IterInput) (rest : List IterInput) :
    ∃ tail, (relayLoop dc (inp :: rest)).1 = iterEvents dc inp ++ tail := by
  cases habort : iterAbort inp with
  | some out => exact ⟨[], by simp [relayLoop, habort]⟩
  | none =>
    by_cases hc : inp.clientRead = ReadResult.closed
    · exact ⟨[], by simp [relayLoop, habort, hc]⟩
    · exact ⟨(relayLoop (iterFilter dc inp.clientRead).1 rest).1,
        by simp [relayLoop, habort, hc]⟩

theorem relay_ordering : ∀ (iters : List IterInput),
    (∀ inp ∈ iters, iterOk inp = true) → ∀ (dc : Nat),
    serialBytes (relayLoop dc iters).1 = serialBytes (filterRun dc (clientDataBytes iters)).2 ∧
    clientBytes (relayLoop dc iters).1 = uartBytesOf iters := by
  intro iters
  induction iters with
  | nil =>
    intro _ dc
    simp [relayLoop, clientDataBytes, uartBytesOf, filterRun, serialBytes, clientBytes,
      clientChunks]
  | cons inp rest ih =>
    intro h dc
    have hok := h inp (List.mem_cons_self _ _)
    have hrest : ∀ i ∈ rest, iterOk i = true := fun i hi => h i (List.mem_cons_of_mem _ hi)
    have hne : inp.clientRead ≠ ReadResult.closed := by
      intro hc
      simp [iterOk, Bool.and_eq_true, hc] at hok
    have hdel : ∀ b, inp.uartByte = some b → (sendRetry inp.sendAttempts).isDelivered = true := by
      intro b hb
      simp only [iterOk, Bool.and_eq_true, Bool.or_eq_true, Bool.not_eq_true'] at hok
      rcases hok.2 with h2 | h2
      · rw [hb] at h2; simp at h2
      · exact h2
    have habort : iterAbort inp = none := iterAbort_eq_none inp hdel
    have hloop : relayLoop dc (inp :: rest)
        = (iterEvents dc inp ++ (relayLoop (iterFilter dc inp.clientRead).1 rest).1,
            (relayLoop (iterFilter dc inp.clientRead).1 rest).2) := by
      simp [relayLoop, habort, hne]
    constructor
    · rw [hloop]
      simp only [serialBytes_append, serialBytes_iterEvents]
      cases hrd : inp.clientRead with
      | closed => exact absurd hrd hne
      | noData =>
        have := (ih hrest dc).1
        simpa [clientDataBytes, hrd, iterFilter] using this
      | dataByte b =>
        have := (ih hrest (filterStep dc b).1).1
        simp [clientDataBytes, hrd, iterFilter, filterRun, serialBytes_append, this]
    · rw [hloop]
      simp only [clientBytes_append, clientBytes_iterEvents]
      cases hu : inp.uartByte with
      | none =>
        cases hrd : inp.clientRead with
        | closed => exact absurd hrd hne
        | noData =>
          have := (ih hrest dc).2
          simpa [uartDelivered, hu, uartBytesOf, hrd, iterFilter] using this
        | dataByte b =>
          have := (ih hrest (filterStep dc b).1).2
          simpa [uartDelivered, hu, uartBytesOf, hrd, iterFilter] using this
      | some b =>
        rcases (isDelivered_iff _).1 (hdel b hu) with ⟨n, hn⟩
        cases hrd : inp.clientRead with
        | closed => exact absurd hrd hne
        | noData =>
          have := (ih hrest dc).2
          simpa [uartDelivered, hu, hn, uartBytesOf, hrd, iterFilter] using this
        | dataByte c =>
          have := (ih hrest (filterStep dc c).1).2
          simpa [uartDelivered, hu, hn, uartBytesOf, hrd, iterFilter] using this

/-- C8: within one iteration of the relay loop at most one byte moves
in each direction — the trace of one iteration holds at most one serial
write and at most one client send — every run of the loop begins with
the events of the first iteration (the two directions are interleaved at
iteration granularity), and over any script that keeps the session
running the serial output is exactly the filter output on the client
bytes in arrival order while the client-bound output is exactly the
UART bytes in arrival order. -/
theorem one_byte_per_direction (iters rest : List IterInput) (dc d : Nat) (inp : IterInput)
    (h : ∀ i ∈ iters, iterOk i = true) :
    ((serialBytes (iterEvents d inp)).length ≤ 1 ∧
      (clientBytes (iterEvents d inp)).length ≤ 1) ∧
    (∃ tail, (relayLoop d (inp :: rest)).1 = iterEvents d inp ++ tail) ∧
    serialBytes (relayLoop dc iters).1 = serialBytes (filterRun dc (clientDataBytes iters)).2 ∧
    clientBytes (relayLoop dc iters).1 = uartBytesOf iters :=
  ⟨iterEvents_bounds d inp, relayLoop_decomp d inp rest,
    (relay_ordering iters h dc).1, (relay_ordering iters h dc).2⟩

/-- Witness for `one_byte_per_direction` on a concrete two-iteration
script moving one byte in each direction. -/
theorem one_byte_per_direction_witness :
    (∀ i ∈ ([⟨ReadResult.dataByte 72, some 5, [SendAttempt.ok 1]⟩,
        ⟨ReadResult.noData, none, []⟩] : List IterInput), iterOk i = true) ∧
    (((serialBytes (iterEvents 0 ⟨ReadResult.dataByte 72, some 5, [SendAttempt.ok 1]⟩)).length ≤ 1 ∧
      (clientBytes (iterEvents 0 ⟨ReadResult.dataByte 72, some 5, [SendAttempt.ok 1]⟩)).length ≤ 1) ∧
    (∃ tail, (relayLoop 0 (⟨ReadResult.dataByte 72, some 5, [SendAttempt.ok 1]⟩ :: [])).1
        = iterEvents 0 ⟨ReadResult.dataByte 72, some 5, [SendAttempt.ok 1]⟩ ++ tail) ∧
    serialBytes (relayLoop 0 [⟨ReadResult.dataByte 72, some 5, [SendAttempt.ok 1]⟩,
        ⟨ReadResult.noData, none, []⟩]).1
      = serialBytes (filterRun 0 (clientDataBytes [⟨ReadResult.dataByte 72, some 5, [SendAttempt.ok 1]⟩,
          ⟨ReadResult.noData, none, []⟩])).2 ∧
    clientBytes (relayLoop 0 [⟨ReadResult.dataByte 72, some 5, [SendAttempt.ok 1]⟩,
        ⟨ReadResult.noData, none, []⟩]).1
      = uartBytesOf [⟨ReadResult.dataByte 72, some 5, [SendAttempt.ok 1]⟩,
          ⟨ReadResult.noData, none, []⟩]) :=
  ⟨by decide,
    one_byte_per_direction
      [⟨ReadResult.dataByte 72, some 5, [SendAttempt.ok 1]⟩, ⟨ReadResult.noData, none, []⟩]
      [] 0 0 ⟨ReadResult.dataByte 72, some 5, [SendAttempt.ok 1]⟩ (by decide)⟩

end PicoRetroTelnet
